import Mathlib

/-!
Verification development for the `browser-cli` repository: a browser-automation
daemon (`src/daemon.js`) with a CLI front-end (`src/bin/br.js`).

The definitions below are shallow embeddings of the JavaScript source.  Browser
and filesystem effects are represented by explicit parameters (e.g. a predicate
telling whether a selector matches an element on the current page) and by
event traces; machine-level JS semantics (string keyed objects, falsy checks,
`isNaN`-based numeric detection, `String.prototype.split` + `Array.prototype.join`)
are modelled faithfully on `List Char` / `String`.
-/

namespace BrowserCli

/-! ### JS numeric-token classification

`daemon.js` (`resolveAndPerformAction`, `resolveSelector`) classifies a selector
token as a numeric view-tree ID with
`!isNaN(selector) && !isNaN(parseFloat(selector))`.
`isNaN(s)` coerces with `Number(s)` (ECMA `StrNumericLiteral`: optional
whitespace, signed decimal with optional fraction/exponent, `Infinity`, or a
radix literal `0x`/`0o`/`0b`; the empty/whitespace-only string coerces to 0).
`parseFloat(s)` skips leading whitespace and needs a valid decimal-literal
prefix (sign, digits, `.`, exponent, or `Infinity`).  The recognizers below
embed exactly the `isNaN` outcomes of those two coercions. -/

/-- JS whitespace characters recognised by `Number` and `parseFloat` coercion. -/
def isJsWhitespace (c : Char) : Bool :=
  c = ' ' || c = '\t' || c = '\n' || c = '\r' || c = '\x0b' || c = '\x0c' ||
  c = ' ' || c = '﻿'

/-- Drop a maximal run of decimal digits. -/
def dropDigits (l : List Char) : List Char := l.dropWhile (fun c => c.isDigit)

/-- Does the list start with a decimal digit? -/
def hasDigitHead : List Char → Bool
  | [] => false
  | c :: _ => c.isDigit

/-- Recognise an optional ECMA exponent part (`e`/`E`, optional sign, digits)
occupying the whole list; the empty list means "no exponent". -/
def expPartOk : List Char → Bool
  | [] => true
  | c :: r =>
    (c = 'e' || c = 'E') &&
    (let r2 := match r with
               | s :: r3 => if s = '+' || s = '-' then r3 else s :: r3
               | [] => []
     hasDigitHead r2 && dropDigits r2 = [])

/-- Recognise an unsigned ECMA `StrUnsignedDecimalLiteral` occupying the whole
list: `Infinity`, `digits [. digits] [exp]`, or `. digits [exp]`. -/
def isUnsignedDecLiteral (l : List Char) : Bool :=
  if l = "Infinity".data then true
  else if hasDigitHead l then
    match dropDigits l with
    | '.' :: r2 => expPartOk (dropDigits r2)
    | r => expPartOk r
  else
    match l with
    | '.' :: r2 => hasDigitHead r2 && expPartOk (dropDigits r2)
    | _ => false

/-- Recognise a signed ECMA decimal literal occupying the whole list. -/
def isSignedDecLiteral : List Char → Bool
  | '+' :: r => isUnsignedDecLiteral r
  | '-' :: r => isUnsignedDecLiteral r
  | l => isUnsignedDecLiteral l

/-- Recognise an ECMA radix literal (`0x`/`0X` hex, `0o`/`0O` octal,
`0b`/`0B` binary) occupying the whole list. -/
def isRadixLiteral : List Char → Bool
  | '0' :: c :: ds =>
    if c = 'x' || c = 'X' then
      ds ≠ [] && ds.all (fun d => d.isDigit || ('a' ≤ d && d ≤ 'f') || ('A' ≤ d && d ≤ 'F'))
    else if c = 'o' || c = 'O' then ds ≠ [] && ds.all (fun d => '0' ≤ d && d ≤ '7')
    else if c = 'b' || c = 'B' then ds ≠ [] && ds.all (fun d => d = '0' || d = '1')
    else false
  | _ => false

/-- `!isNaN(s)` for a JS string `s`: `Number(s)` is not `NaN`. -/
def jsNumberNotNaN (s : String) : Bool :=
  let t := ((s.data.dropWhile isJsWhitespace).reverse.dropWhile isJsWhitespace).reverse
  t = [] || isSignedDecLiteral t || isRadixLiteral t

/-- `!isNaN(parseFloat(s))` for a JS string `s`: after leading whitespace and an
optional sign, the string starts with a digit, `.digit`, or `Infinity`. -/
def jsParseFloatNotNaN (s : String) : Bool :=
  let t := s.data.dropWhile isJsWhitespace
  let r := match t with
           | c :: r0 => if c = '+' || c = '-' then r0 else c :: r0
           | [] => []
  hasDigitHead r ||
  (match r with
   | '.' :: r2 => hasDigitHead r2
   | _ => false) ||
  "Infinity".data.isPrefixOf r

/-- The numeric-ID test of the daemon for a selector token:
`!isNaN(selector) && !isNaN(parseFloat(selector))`. -/
def jsIsNumericToken (s : String) : Bool :=
  jsNumberNotNaN s && jsParseFloatNotNaN s

/-! ### Selector resolution (`resolveAndPerformAction`, daemon.js 328-364)

The ID→XPath map `lastIdToXPath` is a JS object whose keys are the decimal
string forms of numeric node ids; `lastIdToXPath[selector]` is a string-keyed
lookup.  The in-page element query `page.$(sel)` is abstracted by a predicate
`pageHas : String → Bool` (does some element match the selector?). -/

/-- String-keyed lookup into the ID→XPath object: the token hits the entry
whose numeric key prints as the token. -/
def lookupIdXPath (m : List (Nat × String)) (tok : String) : Option String :=
  (m.find? (fun p => toString p.1 = tok)).map (fun p => p.2)

/-- Result of the resolve-then-act phase of `resolveAndPerformAction`:
either the action runs on the resolved actual selector, or a 400-class
error is returned (and no action runs). -/
inductive ResolveResult where
  | act (actual : String)
  | err400 (msg : String)
  deriving Repr, DecidableEq

/-- Embedding of the resolve-then-lookup part of `resolveAndPerformAction`
(daemon.js 328-354): falsy-selector check, numeric-ID branch with falsy-xpath
check, element lookup, and the two 400 error messages.  (In the numeric
branch the action receives the stored XPath; otherwise the original token.) -/
def resolveForAction (idMap : List (Nat × String)) (pageHas : String → Bool)
    (tok : String) : ResolveResult :=
  if tok = "" then .err400 "missing selector"
  else if jsIsNumericToken tok then
    match lookupIdXPath idMap tok with
    | none => .err400 "XPath not found for ID"
    | some xp =>
      if xp = "" then .err400 "XPath not found for ID"
      else if pageHas xp then .act xp
      else .err400 ("Element not found for selector: " ++ tok)
  else
    if pageHas tok then .act tok
    else .err400 ("Element not found for selector: " ++ tok)

/-! ### Secret masking (`GET /html`, daemon.js 545-556)

The handler runs, for each stored secret, a split of the html on the secret
and a join with the three-star token (in `Set` insertion order), skipping falsy (empty) secrets.
`String.prototype.split` with a non-empty string separator cuts at each
leftmost non-overlapping occurrence; the array join
interleaves the pieces with `***`.  Both are embedded on `List Char`; the
split worker is fuel-indexed (fuel `l.length` always suffices) so that it
is structurally recursive and computes by `rfl`/`decide`. -/

/-- The replacement token `***`. -/
def stars : List Char := ['*', '*', '*']

/-- Fuel-indexed worker for `String.prototype.split` with a string separator:
at each position, either the separator matches (cut, consume it) or the
head character joins the current piece. -/
def jsSplitGo (sep : List Char) : Nat → List Char → List (List Char)
  | _, [] => [[]]
  | 0, l => [l]
  | fuel + 1, c :: rest =>
    if sep ≠ [] ∧ sep.isPrefixOf (c :: rest) then
      [] :: jsSplitGo sep fuel ((c :: rest).drop sep.length)
    else
      match jsSplitGo sep fuel rest with
      | [] => [[c]]
      | p :: ps => (c :: p) :: ps

/-- `l.split(sep)` for a non-empty string separator (the daemon never splits
on the empty string: falsy secrets are skipped). -/
def jsSplitOn (sep l : List Char) : List (List Char) :=
  jsSplitGo sep l.length l

/-- The array join of the pieces with the three-star separator. -/
def joinStars : List (List Char) → List Char
  | [] => []
  | [p] => p
  | p :: q :: ps => p ++ stars ++ joinStars (q :: ps)

/-- One masking pass: split on the secret, join with the three-star token. -/
def maskOneSecret (sep l : List Char) : List Char :=
  joinStars (jsSplitOn sep l)

/-- The `GET /html` masking loop over the stored secrets, in insertion
order, skipping falsy (empty) secrets. -/
def maskSecretList (secrets : List (List Char)) (html : List Char) : List Char :=
  secrets.foldl (fun h sec => if sec = [] then h else maskOneSecret sec h) html



/-! ### Session state and the fill endpoints (daemon.js 73-75, 165-167, 390-405)

Module state: `const secrets = new Set()` (insertion-ordered, duplicates
ignored), `const history = []` with
`record(action, args)` pushing an entry.  `POST /fill` calls
`resolveAndPerformAction` with an action that fills, recording
`fill` with the selector and the text; `POST /fill-secret` uses an action
that fills and then adds the secret to the set, recording `fill-secret` with
the selector only.  The driver `fill` call may throw; the outcome on the
actual selector is abstracted by `fillErr : String → Option String`
(`some msg` = the call threw `msg`). -/

/-- One action-history entry: `record` pushes the action name, the argument
map (as key/value pairs in JS object-literal order) and a timestamp. -/
structure HistEntry where
  action : String
  args : List (String × String)
  timestamp : String
  deriving Repr, DecidableEq

/-- The per-instance mutable state of the daemon relevant to secrets and history. -/
structure SessionState where
  secrets : List String
  history : List HistEntry
  deriving Repr, DecidableEq

/-- `Set.prototype.add`: appends in insertion order, ignores duplicates. -/
def addSecret (l : List String) (s : String) : List String :=
  if s ∈ l then l else l ++ [s]

/-- HTTP response of an interaction endpoint. -/
inductive HttpResp where
  | ok
  | okJson (body : String)
  | badReq (msg : String)
  | serverErr (msg : String)
  deriving Repr, DecidableEq

/-- The 500-message wrapper built in the catch block of `resolveAndPerformAction`. -/
def actionErrMsg (msg : String) : String :=
  "Error when action: " ++ msg ++
  "\n\nUse CSS selectors (e.g., \"input\"), XPath (e.g., \"xpath=//input\"), or numeric IDs from view-tree"

/-- Embedding of `POST /fill-secret` (daemon.js 398-405): missing-secret
check, selector resolution, driver fill on the actual selector, then
`secrets.add(secret)`, then a `record` of the action name and selector.
A thrown fill ends in the catch block: a 500 and no state change. -/
def fillSecretHandler (st : SessionState) (idMap : List (Nat × String))
    (pageHas : String → Bool) (fillErr : String → Option String)
    (now : String) (selector : String) (secret : Option String) :
    SessionState × HttpResp :=
  match secret with
  | none => (st, .badReq "missing secret")
  | some sec =>
    match resolveForAction idMap pageHas selector with
    | .err400 m => (st, .badReq m)
    | .act actual =>
      match fillErr actual with
      | some m => (st, .serverErr (actionErrMsg m))
      | none =>
        ({ secrets := addSecret st.secrets sec,
           history := st.history ++
             [⟨"fill-secret", [("selector", selector)], now⟩] }, .ok)

/-- Embedding of `POST /fill` (daemon.js 390-396): like `fill-secret` but the
text is not added to the secret set and is recorded in the history args. -/
def fillHandler (st : SessionState) (idMap : List (Nat × String))
    (pageHas : String → Bool) (fillErr : String → Option String)
    (now : String) (selector : String) (text : Option String) :
    SessionState × HttpResp :=
  match text with
  | none => (st, .badReq "missing text")
  | some t =>
    match resolveForAction idMap pageHas selector with
    | .err400 m => (st, .badReq m)
    | .act actual =>
      match fillErr actual with
      | some m => (st, .serverErr (actionErrMsg m))
      | none =>
        ({ secrets := st.secrets,
           history := st.history ++
             [⟨"fill", [("selector", selector), ("text", t)], now⟩] }, .ok)

/-- Embedding of `GET /html` (daemon.js 545-556): the page content with each
stored secret masked in insertion order. -/
def htmlResponse (st : SessionState) (pageContent : String) : String :=
  ⟨maskSecretList (st.secrets.map String.data) pageContent.data⟩

/-- Embedding of `GET /history` (daemon.js 558-560): the history array. -/
def historyResponse (st : SessionState) : List HistEntry :=
  st.history

/-- A string occurs somewhere in a history entry (action name, an argument
key or value, or the timestamp). -/
def histEntryContains (e : HistEntry) (s : String) : Bool :=
  decide (s.data <:+: e.action.data) || decide (s.data <:+: e.timestamp.data) ||
  e.args.any (fun kv =>
    decide (s.data <:+: kv.1.data) || decide (s.data <:+: kv.2.data))



/-! ### Search-input filling (`POST /fill-search`, daemon.js 434-485, and
`resolveSelector`, daemon.js 306-326)

`resolveSelector` classifies the token exactly like
`resolveAndPerformAction`, but it throws on failure instead of answering
400 — and its unknown-ID message carries the token
(`XPath not found for ID: <token>`).  The `/fill-search` handler resolves
an explicit selector through `resolveSelector` inside its try block, so a
resolver failure lands in the catch at daemon.js 480 and is reported as an
HTTP 500 whose body wraps the thrown message in `Search error: ...` plus a
hint; without an explicit selector it scans a fixed list of search-input
selectors and answers 400 when none matches. -/

/-- Embedding of `resolveSelector` (daemon.js 306-326): the resolved actual
selector, or the message of the error it throws. -/
def resolveSelector (idMap : List (Nat × String)) (pageHas : String → Bool)
    (tok : String) : Except String String :=
  if jsIsNumericToken tok then
    match lookupIdXPath idMap tok with
    | none => .error ("XPath not found for ID: " ++ tok)
    | some xp =>
      if xp = "" then .error ("XPath not found for ID: " ++ tok)
      else if pageHas xp then .ok xp
      else .error ("Element not found for selector: " ++ tok)
  else
    if pageHas tok then .ok tok
    else .error ("Element not found for selector: " ++ tok)

/-- HTTP response of `POST /fill-search`: the JSON success answer carries
the selector that was used. -/
inductive SearchResp where
  | okJson (usedSelector : Option String)
  | badReq (msg : String)
  | serverErr (msg : String)
  deriving Repr, DecidableEq

/-- The 500 body of the catch block at daemon.js 480. -/
def searchErrMsg (m : String) : String :=
  "Search error: " ++ m ++
  "\n\nTry using --selector to specify the search input explicitly."

/-- The falsy-or-blank query check `!query || !query.trim()`. -/
def queryBlank (q : String) : Bool :=
  q.data.all isJsWhitespace

/-- The fixed ordered list of smart search-input selectors. -/
def searchSelectors : List String :=
  ["input[type=\"search\"]", "input[name=\"q\"]", "input[name=\"query\"]",
   "input[name=\"search\"]", "input[placeholder*=\"search\" i]",
   "[role=\"searchbox\"]", "input[placeholder*=\"Search\" i]"]

/-- Embedding of `POST /fill-search` (daemon.js 434-485): blank-query check,
explicit-selector resolution through `resolveSelector` (whose throw is
caught and reported as a 500 `Search error`), smart detection otherwise,
then the fill (which may itself throw into the same catch) and the JSON
answer naming the selector used. -/
def fillSearchHandler (idMap : List (Nat × String)) (pageHas : String → Bool)
    (fillErr : String → Option String) (query : String)
    (selector : Option String) : SearchResp :=
  if queryBlank query then .badReq "missing query"
  else
    match selector with
    | some sel =>
      match resolveSelector idMap pageHas sel with
      | .error m => .serverErr (searchErrMsg m)
      | .ok actual =>
        match fillErr actual with
        | some m => .serverErr (searchErrMsg m)
        | none => .okJson (some actual)
    | none =>
      match searchSelectors.find? pageHas with
      | none => .badReq
          "No search input found. Try again with --selector to specify the exact search input."
      | some found =>
        match fillErr found with
        | some m => .serverErr (searchErrMsg m)
        | none => .okJson (some found)

/-! ### Named-instance registry (`src/bin/br.js` 32-89, 215-224)

`readRegistry` parses `~/.br/instances.json`, probes the pid of each entry with
`process.kill(pid, 0)`, deletes dead entries, rewrites the file when
something was deleted, and returns the map; a parse/read failure returns the
empty map without touching the file.  `allocatePort` scans the registry
ports and walks up from 3030 until a port is both unused and passes the bind
probe.  The filesystem and OS are abstracted: the parsed file is an
optional association list (`none` = missing/corrupt), liveness and the bind
probe are predicates. -/

/-- One registry entry: a port and a pid. -/
structure RegEntry where
  port : Nat
  pid : Nat
  deriving Repr, DecidableEq

/-- Embedding of `readRegistry`: the returned map and the contents written
back to disk (`none` = the file was not rewritten). -/
def readRegistry (file : Option (List (String × RegEntry)))
    (alive : Nat → Bool) :
    List (String × RegEntry) × Option (List (String × RegEntry)) :=
  match file with
  | none => ([], none)
  | some m =>
    let pruned := m.filter (fun e => alive e.2.pid)
    let changed := m.any (fun e => ! alive e.2.pid)
    (pruned, if changed then some pruned else none)

/-- The on-disk registry after a `readRegistry` call, given the previous
contents (`none` = file missing/corrupt). -/
def fileAfterRead (file : Option (List (String × RegEntry)))
    (alive : Nat → Bool) : Option (List (String × RegEntry)) :=
  match (readRegistry file alive).2 with
  | some w => some w
  | none => file

/-- Fuel-indexed walk of the while loop in `allocatePort`: from `p` upwards,
skip ports that are in the used set or fail the bind probe. -/
def allocFrom (used : List Nat) (bindFree : Nat → Bool) :
    Nat → Nat → Option Nat
  | 0, _ => none
  | fuel + 1, p =>
    if used.contains p || ! bindFree p then allocFrom used bindFree fuel (p + 1)
    else some p

/-- Embedding of `allocatePort` (br.js 83-89): scan the registry for used
ports and walk up from 3030.  The JS loop has no bound; `fuel` bounds the
search, with `none` meaning the loop was still running. -/
def allocatePort (registry : List (String × RegEntry)) (bindFree : Nat → Bool)
    (fuel : Nat) : Option Nat :=
  allocFrom (registry.map (fun e => e.2.port)) bindFree fuel 3030

/-- Embedding of the port selection in the `start` command (br.js 215-221):
the default instance prefers 3030 when unregistered and free, otherwise
`allocatePort` runs. -/
def startPortSelection (name : String) (registry : List (String × RegEntry))
    (bindFree : Nat → Bool) (fuel : Nat) : Option Nat :=
  if name = "default" ∧ (registry.find? (fun e => e.1 = "default")).isNone ∧
      bindFree 3030 then
    some 3030
  else
    allocatePort registry bindFree fuel

/-- Embedding of the daemon environment prepared by the `start` command
(br.js 224): `BR_PORT` is the decimal form of the allocated port,
`BR_INSTANCE` the instance name. -/
def startEnv (name : String) (port : Nat) : List (String × String) :=
  [("BR_PORT", toString port), ("BR_INSTANCE", name)]

/-! ### Daemon HTTP bind (daemon.js 874-878)

The listen step of the daemon is `const port = 3030; app.listen(port, ...)`
with the log line built from that constant: the environment (including
`BR_PORT`) is not consulted. -/

/-- The port the daemon binds, as a function of its environment. -/
def daemonListenPort (_env : List (String × String)) : Nat := 3030

/-- The startup log line of the daemon. -/
def daemonListenLog (env : List (String × String)) : String :=
  "br daemon running on port " ++ toString (daemonListenPort env)


/-! ### Navigation (`POST /goto`, daemon.js 289-304) and human-like delays
(daemon.js 169-173)

`humanDelay(min, max)` resolves immediately unless `BR_HUMANLIKE` equals the
string true,
in which case it sleeps a random duration in the given range.  The handler
awaits `humanDelay(200, 400)`, then `page.goto(url, timeout 30000,
waitUntil domcontentloaded)`, then `humanDelay(200, 400)` and `record`;
a thrown `goto` jumps to the catch (skipping the second delay and the
record).  The sequence of awaited browser-facing operations is embedded as
an event trace. -/

/-- An awaited operation on the navigation path. -/
inductive NavEvent where
  | delay (minMs maxMs : Nat)
  | gotoCall (url : String) (timeoutMs : Nat) (waitUntil : String)
  deriving Repr, DecidableEq

/-- Embedding of `humanDelay` as a trace fragment: one delay event when
`BR_HUMANLIKE` equals the string true, nothing otherwise. -/
def humanDelayTrace (humanlike : Bool) (minMs maxMs : Nat) : List NavEvent :=
  if humanlike then [NavEvent.delay minMs maxMs] else []

/-- Embedding of `POST /goto`: the trace of awaited operations and the
response, given whether the driver navigation succeeds. -/
def gotoHandler (humanlike : Bool) (url : Option String)
    (gotoSucceeds : Bool) (gotoErrMsg : String) : List NavEvent × HttpResp :=
  match url with
  | none => ([], .badReq "missing url")
  | some u =>
    if gotoSucceeds then
      (humanDelayTrace humanlike 200 400 ++
         [NavEvent.gotoCall u 30000 "domcontentloaded"] ++
         humanDelayTrace humanlike 200 400, .ok)
    else
      (humanDelayTrace humanlike 200 400 ++
         [NavEvent.gotoCall u 30000 "domcontentloaded"], .serverErr gotoErrMsg)

/-! ### Console-log ring

The console-capture subsystem of the daemon (the ring buffer, the listeners
and the `/console` endpoints) is part of the repository but not among the
provided sources; only its CLI caller (`br console` in `src/bin/br.js`) is.
Its data model is taken from the spec. -/

/-- One captured console entry (type, text, timestamp, originating URL and
tab index, per the data model of the spec). -/
structure ConsoleEntry where
  type : String
  text : String
  timestamp : String
  url : String
  tab : Nat
  deriving Repr, DecidableEq

/-- Modelled from the spec: the console ring (absent from the provided
sources) is a bounded ring of capacity 1000 whose oldest entries are dropped
on overflow. -/
def pushConsole (ring : List ConsoleEntry) (e : ConsoleEntry) :
    List ConsoleEntry :=
  if 1000 < (ring ++ [e]).length then
    (ring ++ [e]).drop ((ring ++ [e]).length - 1000)
  else ring ++ [e]

/-- Feeding a stream of console events into an initially empty ring. -/
def runConsole (events : List ConsoleEntry) : List ConsoleEntry :=
  events.foldl pushConsole []

/-- Modelled from the spec: on navigation of a tab, the daemon (code absent
from the provided sources) drops the console entries whose tab index matches
that tab, keeping the others. -/
def clearConsoleForTab (ring : List ConsoleEntry) (tab : Nat) :
    List ConsoleEntry :=
  ring.filter (fun e => e.tab ≠ tab)

/-- The console ring after a `POST /goto` on the active tab: cleared for
that tab on success, untouched on failure (modelled from the spec for the
clearing part; the provided `goto` handler body performs no console
mutation). -/
def consoleAfterGoto (ring : List ConsoleEntry) (activeTab : Nat)
    (gotoSucceeds : Bool) : List ConsoleEntry :=
  if gotoSucceeds then clearConsoleForTab ring activeTab else ring

/-! ### Screenshot export (`GET /screenshot`, daemon.js 518-543)

The handler ensures the temp directory exists, picks the output file (the
resolved query path, or `shot-<domain>-<epoch>.png` under the temp
directory, with the hostname stripped of characters outside
`[a-zA-Z0-9.-]`), awaits `page.screenshot` and responds with the path.  The
trace of awaited/filesystem operations is embedded; `path.resolve` is an
abstract parameter. -/

/-- An operation on the `GET /screenshot` path. -/
inductive ShotEvent where
  | mkdirTempDir
  | dismissModalsCall
  | waitChallengeCall
  | screenshotCall (path : String) (fullPage : Bool)
  deriving Repr, DecidableEq

/-- The hostname sanitiser: the replace call on `url.hostname` that deletes
every character outside letters, digits, dot and hyphen. -/
def sanitizeDomain (hostname : String) : String :=
  ⟨hostname.data.filter (fun c =>
    c.isAlpha || c.isDigit || c = '.' || c = '-')⟩

/-- Embedding of `GET /screenshot`: trace of operations and the response
body (the file path).  `tmpdir` is `os.tmpdir()`, `resolvePath` is
`path.resolve` against the current directory, `hostname` the hostname of
the URL of the active page and `epoch` is `Date.now()`. -/
def screenshotHandler (tmpdir : String) (dirExists : Bool)
    (resolvePath : String → String) (hostname : String) (epoch : Nat)
    (queryPath : Option String) (queryFullPage : Option String) :
    List ShotEvent × String :=
  let dir := tmpdir ++ "/br_cli"
  let file := match queryPath with
    | some p => resolvePath p
    | none =>
        dir ++ "/shot-" ++ sanitizeDomain hostname ++ "-" ++ toString epoch ++
          ".png"
  let fullPage := queryFullPage = some "true"
  ((if dirExists then [] else [ShotEvent.mkdirTempDir]) ++
     [ShotEvent.screenshotCall file fullPage], file)


/-! ### Tree builder (`GET /tree`: `generateXPath` / `traverseDomAndMap`,
daemon.js 582-620)

The DOM tree returned by CDP `DOM.getDocument` is embedded as a tree of
nodes carrying `nodeName` (uppercase tag names for elements, `#document` /
`#text` for the special nodes) and a positive `nodeId` (CDP node ids are
unique and positive; `0` models a falsy id).  `generateXPath(node, parent)`
lowercases the name and appends a 1-based `[k]` exactly when the parent has
more than one child with the same `nodeName`; `siblings.indexOf(node)` under
JS reference identity equals the number of same-name siblings strictly
before this occurrence, computed here from the prior-sibling list.
`traverseDomAndMap` prepends `/` plus the parent xpath and records the
entry when the node id is truthy. -/

inductive DomNode where
  | mk (nodeName : String) (nodeId : Nat) (children : List DomNode)

def DomNode.nodeName : DomNode → String
  | .mk n _ _ => n

def DomNode.nodeId : DomNode → Nat
  | .mk _ i _ => i

def DomNode.children : DomNode → List DomNode
  | .mk _ _ cs => cs

/-- ASCII lowercasing of one character, as `String.prototype.toLowerCase`
acts on the ASCII tag names CDP reports. -/
def lowerChar (c : Char) : Char :=
  if 'A' ≤ c ∧ c ≤ 'Z' then Char.ofNat (c.toNat + 32) else c

/-- `nodeName.toLowerCase()` on ASCII node names. -/
def lowerName (s : String) : String :=
  ⟨s.data.map lowerChar⟩

/-- `generateXPath(node, null)` for the traversal root: no parent, hence no
sibling index. -/
def rootSegment (node : DomNode) : String :=
  if node.nodeName = "#document" then "" else lowerName node.nodeName

/-- `generateXPath(node, parentNode)` for the child occurring after the
siblings in `before`. -/
def childSegment (parent : DomNode) (before : List DomNode)
    (node : DomNode) : String :=
  if node.nodeName = "#document" then ""
  else
    let tag := lowerName node.nodeName
    let sibs := parent.children.filter (fun c => c.nodeName = node.nodeName)
    if 1 < sibs.length then
      tag ++ "[" ++
        toString
          ((before.filter (fun c => c.nodeName = node.nodeName)).length + 1) ++
        "]"
    else tag

/-- The xpath-building step of `traverseDomAndMap`:
a slash plus the segment, appended to the parent xpath when non-empty. -/
def extendXPath (parentXPath seg : String) : String :=
  if parentXPath = "" then "/" ++ seg else parentXPath ++ "/" ++ seg

mutual

/-- Embedding of `traverseDomAndMap(node, parentXPath, parentNode)`
restricted to its `idToXPath` output: the entry for this node (when its id
is truthy) followed by the entries of the depth-first traversal of its
children.  (CDP node ids are unique, so the association list binds each id
at most once.)  The segment for this node is computed by the caller, which
knows the parent. -/
def traverseNode (node : DomNode) (parentXPath : String) (seg : String) :
    List (Nat × String) :=
  match node with
  | .mk name id cs =>
    let cur := extendXPath parentXPath seg
    (if id ≠ 0 then [(id, cur)] else []) ++
      traverseChildren (.mk name id cs) cs [] cur
termination_by sizeOf node

/-- The child loop of `traverseDomAndMap`, carrying the prior siblings for
the reference-identity `indexOf`. -/
def traverseChildren (parent : DomNode) (cs : List DomNode)
    (before : List DomNode) (cur : String) : List (Nat × String) :=
  match cs with
  | [] => []
  | c :: rest =>
      traverseNode c cur (childSegment parent before c) ++
        traverseChildren parent rest (before ++ [c]) cur
termination_by sizeOf cs

end

/-- `traverseDomAndMap(domRoot)`: the top-level call with empty parent
xpath and no parent node. -/
def traverseDomAndMap (domRoot : DomNode) : List (Nat × String) :=
  traverseNode domRoot "" (rootSegment domRoot)

/-! Spec-side formulation: the xpath of a node is `/` followed by the
`/`-joined concatenation of the per-ancestor segments (document root first,
the segment of the node itself last). -/

/-- Join a list of segments with `/` (no leading slash). -/
def joinSegments : List String → String
  | [] => ""
  | [s] => s
  | s :: rest => s ++ "/" ++ joinSegments rest

/-- The document-rooted xpath of a segment chain: a leading `/` plus the
`/`-joined segments. -/
def chainXPath (segs : List String) : String :=
  "/" ++ joinSegments segs

/-- The xpath string the traversal threads downward, as a function of the
segment chain so far: empty for the root call, `chainXPath` afterwards. -/
def pathOfChain (segs : List String) : String :=
  match segs with
  | [] => ""
  | _ :: _ => chainXPath segs

mutual

/-- Spec-side traversal: identical shape, but the xpath of each entry is computed
from scratch as the `/`-joined concatenation of the whole segment chain. -/
def specTravNode (node : DomNode) (ancestors : List String) (seg : String) :
    List (Nat × String) :=
  match node with
  | .mk name id cs =>
    let segs := ancestors ++ [seg]
    (if id ≠ 0 then [(id, chainXPath segs)] else []) ++
      specTravChildren (.mk name id cs) cs [] segs
termination_by sizeOf node

def specTravChildren (parent : DomNode) (cs : List DomNode)
    (before : List DomNode) (segs : List String) : List (Nat × String) :=
  match cs with
  | [] => []
  | c :: rest =>
      specTravNode c segs (childSegment parent before c) ++
        specTravChildren parent rest (before ++ [c]) segs
termination_by sizeOf cs

end


/-! ### Concrete fixtures used by the scenario theorems -/

/-- A page on which every selector matches some element. -/
def allSelectorsMatch : String → Bool := fun _ => true

/-- A driver whose `fill` never throws. -/
def fillNeverThrows : String → Option String := fun _ => none

/-- Scenario: `POST /fill-secret` with value `un` on an empty session. -/
def c1Step1 : SessionState × HttpResp :=
  fillSecretHandler ⟨[], []⟩ [] allSelectorsMatch fillNeverThrows "t1" "#a"
    (some "un")

/-- Scenario: then `POST /fill-secret` with value `hunter2`. -/
def c1Step2 : SessionState × HttpResp :=
  fillSecretHandler c1Step1.1 [] allSelectorsMatch fillNeverThrows "t2" "#b"
    (some "hunter2")

/-- Scenario: then `POST /fill` with text `hunter2` on another field. -/
def c1Step3 : SessionState × HttpResp :=
  fillHandler c1Step2.1 [] allSelectorsMatch fillNeverThrows "t3" "#c"
    (some "hunter2")

/-- The DOM tree CDP reports for
`<html><body><ul><li>a</li><li>b</li></ul></body></html>` (element node
names uppercase, text children omitted as irrelevant to the `li` xpaths). -/
def c3Li1 : DomNode := .mk "LI" 5 []

def c3Li2 : DomNode := .mk "LI" 6 []

def c3Ul : DomNode := .mk "UL" 4 [c3Li1, c3Li2]

def c3Body : DomNode := .mk "BODY" 3 [c3Ul]

def c3Html : DomNode := .mk "HTML" 2 [c3Body]

def c3Doc : DomNode := .mk "#document" 1 [c3Html]

/-- A stream of 1500 distinct console events. -/
def c9Events : List ConsoleEntry :=
  (List.range 1500).map (fun i => ⟨"log", toString i, "", "", 0⟩)


/-! ## Theorems -/

/-! Unfolding lemmas for the fuel-indexed split: any fuel at least the length
of the input produces the same answer, giving clean recursion equations for
`jsSplitOn` and hence for `maskOneSecret`. -/

theorem jsSplitGo_ne_nil (sep : List Char) (fuel : Nat) (l : List Char) :
    jsSplitGo sep fuel l ≠ [] := by
  match fuel, l with
  | _, [] => simp [jsSplitGo]
  | 0, c :: rest => simp [jsSplitGo]
  | fuel + 1, c :: rest =>
    rw [jsSplitGo]
    split
    · simp
    · split <;> simp

theorem jsSplitGo_fuel_irrel (sep : List Char) :
    ∀ (f₁ : Nat), ∀ (f₂ : Nat) (l : List Char),
      l.length ≤ f₁ → l.length ≤ f₂ → jsSplitGo sep f₁ l = jsSplitGo sep f₂ l := by
  intro f₁
  induction f₁ with
  | zero =>
    intro f₂ l h1 _
    have : l = [] := List.eq_nil_of_length_eq_zero (Nat.le_zero.mp h1)
    subst this
    cases f₂ <;> simp [jsSplitGo]
  | succ f ih =>
    intro f₂ l h1 h2
    match l with
    | [] => cases f₂ <;> simp [jsSplitGo]
    | c :: rest =>
      match f₂ with
      | 0 => exact absurd h2 (by simp)
      | g + 1 =>
        rw [jsSplitGo, jsSplitGo]
        have hr : rest.length ≤ f := by simpa using h1
        have hr2 : rest.length ≤ g := by simpa using h2
        split
        · rename_i hcond
          have hsep : 1 ≤ sep.length := by
            cases hs : sep with
            | nil => exact absurd hs hcond.1
            | cons a b => simp
          have hd : ((c :: rest).drop sep.length).length ≤ f := by
            simp only [List.length_drop, List.length_cons]
            omega
          have hd2 : ((c :: rest).drop sep.length).length ≤ g := by
            simp only [List.length_drop, List.length_cons]
            omega
          rw [ih g _ hd hd2]
        · rw [ih g rest hr hr2]

theorem jsSplitOn_nil (sep : List Char) : jsSplitOn sep [] = [[]] := rfl

theorem jsSplitOn_pos (sep : List Char) (c : Char) (rest : List Char)
    (h : sep ≠ [] ∧ sep.isPrefixOf (c :: rest)) :
    jsSplitOn sep (c :: rest) =
      [] :: jsSplitOn sep ((c :: rest).drop sep.length) := by
  unfold jsSplitOn
  rw [show (c :: rest).length = rest.length + 1 from rfl, jsSplitGo, if_pos h]
  congr 1
  apply jsSplitGo_fuel_irrel
  · have hsep : 1 ≤ sep.length := by
      cases hs : sep with
      | nil => exact absurd hs h.1
      | cons a b => simp
    simp only [List.length_drop, List.length_cons]
    omega
  · exact Nat.le_refl _

theorem jsSplitOn_neg (sep : List Char) (c : Char) (rest : List Char)
    (h : ¬ (sep ≠ [] ∧ sep.isPrefixOf (c :: rest))) :
    jsSplitOn sep (c :: rest) =
      match jsSplitOn sep rest with
      | [] => [[c]]
      | p :: ps => (c :: p) :: ps := by
  unfold jsSplitOn
  rw [show (c :: rest).length = rest.length + 1 from rfl, jsSplitGo, if_neg h]

/-! Recursion equations for a single masking pass. -/

theorem maskOneSecret_nil (sep : List Char) : maskOneSecret sep [] = [] := rfl

theorem maskOneSecret_pos (sep : List Char) (c : Char) (rest : List Char)
    (h : sep ≠ [] ∧ sep.isPrefixOf (c :: rest)) :
    maskOneSecret sep (c :: rest) =
      stars ++ maskOneSecret sep ((c :: rest).drop sep.length) := by
  unfold maskOneSecret
  rw [jsSplitOn_pos sep c rest h]
  cases hs : jsSplitOn sep ((c :: rest).drop sep.length) with
  | nil => exact absurd hs (jsSplitGo_ne_nil _ _ _)
  | cons p ps => simp [joinStars]

theorem maskOneSecret_neg (sep : List Char) (c : Char) (rest : List Char)
    (h : ¬ (sep ≠ [] ∧ sep.isPrefixOf (c :: rest))) :
    maskOneSecret sep (c :: rest) = c :: maskOneSecret sep rest := by
  unfold maskOneSecret
  rw [jsSplitOn_neg sep c rest h]
  cases hs : jsSplitOn sep rest with
  | nil => exact absurd hs (jsSplitGo_ne_nil _ _ _)
  | cons p ps =>
    cases ps with
    | nil => simp [joinStars]
    | cons q qs => simp [joinStars]

/-! Key masking lemmas: a non-empty secret containing no `*` character never
occurs in the masked output, and masking other secrets cannot re-introduce
it.  (A secret containing `*` can survive: see the `C1` counterexample.) -/

theorem not_infix_of_star_cons {s t : List Char} (hs : s ≠ [])
    (hstar : '*' ∉ s) (h : s <:+: ('*' :: t)) : s <:+: t := by
  rcases List.infix_cons_iff.mp h with hp | hi
  · cases s with
    | nil => exact absurd rfl hs
    | cons a s0 =>
      rcases List.cons_prefix_cons.mp hp with ⟨ha, _⟩
      exact absurd (ha ▸ List.mem_cons_self a s0) hstar
  · exact hi

theorem not_infix_of_stars_append {s t : List Char} (hs : s ≠ [])
    (hstar : '*' ∉ s) (h : s <:+: (stars ++ t)) : s <:+: t := by
  have h1 := not_infix_of_star_cons hs hstar h
  have h2 := not_infix_of_star_cons hs hstar h1
  exact not_infix_of_star_cons hs hstar h2

theorem starless_prefix_of_mask {σ sep l : List Char} (hstar : '*' ∉ σ)
    (h : σ <+: maskOneSecret sep l) : σ <+: l := by
  induction l generalizing σ with
  | nil => rw [maskOneSecret_nil] at h; exact h
  | cons c rest ih =>
    by_cases hc : sep ≠ [] ∧ sep.isPrefixOf (c :: rest)
    · rw [maskOneSecret_pos sep c rest hc] at h
      cases σ with
      | nil => exact List.nil_prefix
      | cons a σ0 =>
        rcases List.cons_prefix_cons.mp h with ⟨ha, _⟩
        exact absurd (ha ▸ List.mem_cons_self a σ0) hstar
    · rw [maskOneSecret_neg sep c rest hc] at h
      cases σ with
      | nil => exact List.nil_prefix
      | cons a σ0 =>
        rcases List.cons_prefix_cons.mp h with ⟨ha, hp⟩
        have : σ0 <+: rest := ih (fun hm => hstar (List.mem_cons_of_mem a hm)) hp
        exact ha ▸ List.cons_prefix_cons.mpr ⟨rfl, this⟩

theorem secret_not_in_own_mask_bounded (s : List Char) (hs : s ≠ [])
    (hstar : '*' ∉ s) :
    ∀ (n : Nat) (l : List Char), l.length ≤ n → ¬ s <:+: maskOneSecret s l := by
  intro n
  induction n with
  | zero =>
    intro l hl
    have : l = [] := List.eq_nil_of_length_eq_zero (Nat.le_zero.mp hl)
    subst this
    rw [maskOneSecret_nil]
    intro h
    exact hs (List.eq_nil_of_infix_nil h)
  | succ n ih =>
    intro l hl
    match l with
    | [] =>
      rw [maskOneSecret_nil]
      intro h
      exact hs (List.eq_nil_of_infix_nil h)
    | c :: rest =>
      have hrest : rest.length ≤ n := by
        simp only [List.length_cons] at hl
        omega
      by_cases hc : s.isPrefixOf (c :: rest)
      · rw [maskOneSecret_pos s c rest ⟨hs, hc⟩]
        intro h
        have h2 := not_infix_of_stars_append hs hstar h
        have hsep : 1 ≤ s.length := by
          cases hx : s with
          | nil => exact absurd hx hs
          | cons a b => simp
        have hle : ((c :: rest).drop s.length).length ≤ n := by
          simp only [List.length_drop, List.length_cons]
          omega
        exact ih _ hle h2
      · rw [maskOneSecret_neg s c rest (fun hx => hc hx.2)]
        intro h
        rcases List.infix_cons_iff.mp h with hp | hi
        · cases hx : s with
          | nil => exact hs hx
          | cons a s0 =>
            rw [hx] at hp
            rcases List.cons_prefix_cons.mp hp with ⟨ha, hps⟩
            have hstar0 : '*' ∉ s0 := fun hm => hstar (hx ▸ List.mem_cons_of_mem a hm)
            have : s0 <+: rest := starless_prefix_of_mask hstar0 hps
            exact hc ( List.isPrefixOf_iff_prefix.mpr
              (hx ▸ (ha ▸ List.cons_prefix_cons.mpr ⟨rfl, this⟩)))
        · exact ih rest hrest hi

theorem secret_not_in_own_mask (s : List Char) (hs : s ≠ []) (hstar : '*' ∉ s) :
    ∀ l, ¬ s <:+: maskOneSecret s l :=
  fun l => secret_not_in_own_mask_bounded s hs hstar l.length l (Nat.le_refl _)

theorem mask_preserves_no_occurrence_bounded (s : List Char) (hs : s ≠ [])
    (hstar : '*' ∉ s) (t : List Char) :
    ∀ (n : Nat) (u : List Char), u.length ≤ n →
      ¬ s <:+: u → ¬ s <:+: maskOneSecret t u := by
  intro n
  induction n with
  | zero =>
    intro u hl
    have : u = [] := List.eq_nil_of_length_eq_zero (Nat.le_zero.mp hl)
    subst this
    rw [maskOneSecret_nil]
    exact fun h => h
  | succ n ih =>
    intro u hl
    match u with
    | [] => rw [maskOneSecret_nil]; exact fun h => h
    | c :: rest =>
      intro hu
      have hrest : rest.length ≤ n := by
        simp only [List.length_cons] at hl
        omega
      by_cases hc : t ≠ [] ∧ t.isPrefixOf (c :: rest)
      · rw [maskOneSecret_pos t c rest hc]
        intro h
        have h2 := not_infix_of_stars_append hs hstar h
        have hnd : ¬ s <:+: ((c :: rest).drop t.length) :=
          fun hx => hu (hx.trans (List.drop_suffix _ _).isInfix)
        have htl : 1 ≤ t.length := by
          cases hx : t with
          | nil => exact absurd hx hc.1
          | cons a b => simp
        have hle : ((c :: rest).drop t.length).length ≤ n := by
          simp only [List.length_drop, List.length_cons]
          omega
        exact ih _ hle hnd h2
      · rw [maskOneSecret_neg t c rest hc]
        intro h
        rcases List.infix_cons_iff.mp h with hp | hi
        · cases hx : s with
          | nil => exact hs hx
          | cons a s0 =>
            rw [hx] at hp
            rcases List.cons_prefix_cons.mp hp with ⟨ha, hps⟩
            have hstar0 : '*' ∉ s0 := fun hm => hstar (hx ▸ List.mem_cons_of_mem a hm)
            have hp0 : s0 <+: rest := starless_prefix_of_mask hstar0 hps
            have : s <+: (c :: rest) := hx ▸ (ha ▸ List.cons_prefix_cons.mpr ⟨rfl, hp0⟩)
            exact hu this.isInfix
        · have hnr : ¬ s <:+: rest :=
            fun hx => hu (hx.trans (List.suffix_cons c rest).isInfix)
          exact ih rest hrest hnr hi

theorem mask_preserves_no_occurrence (s : List Char) (hs : s ≠ [])
    (hstar : '*' ∉ s) (t : List Char) :
    ∀ u, ¬ s <:+: u → ¬ s <:+: maskOneSecret t u :=
  fun u => mask_preserves_no_occurrence_bounded s hs hstar t u.length u (Nat.le_refl _)

theorem maskSecretList_preserves_no_occurrence (s : List Char) (hs : s ≠ [])
    (hstar : '*' ∉ s) (secrets : List (List Char)) :
    ∀ u, ¬ s <:+: u → ¬ s <:+: maskSecretList secrets u := by
  induction secrets with
  | nil => intro u hu; exact hu
  | cons t rest ih =>
    intro u hu
    show ¬ s <:+: maskSecretList rest (if t = [] then u else maskOneSecret t u)
    by_cases ht : t = []
    · rw [if_pos ht]; exact ih u hu
    · rw [if_neg ht]
      exact ih _ (mask_preserves_no_occurrence s hs hstar t u hu)

theorem maskSecretList_no_secret (secrets : List (List Char)) (s : List Char)
    (hmem : s ∈ secrets) (hs : s ≠ []) (hstar : '*' ∉ s) :
    ∀ html, ¬ s <:+: maskSecretList secrets html := by
  induction secrets with
  | nil => exact absurd hmem (List.not_mem_nil s)
  | cons t rest ih =>
    intro html
    show ¬ s <:+: maskSecretList rest (if t = [] then html else maskOneSecret t html)
    rcases List.mem_cons.mp hmem with heq | hmem0
    · subst heq
      rw [if_neg hs]
      exact maskSecretList_preserves_no_occurrence s hs hstar rest _
        (secret_not_in_own_mask s hs hstar html)
    · exact ih hmem0 _

/-! Helper lemmas for the tree builder: the incremental xpath threading of
`traverseDomAndMap` computes the `/`-joined concatenation of the segment
chain. -/

theorem joinSegments_append_last (ss : List String) (x : String)
    (h : ss ≠ []) :
    joinSegments (ss ++ [x]) = joinSegments ss ++ "/" ++ x := by
  induction ss with
  | nil => exact absurd rfl h
  | cons a rest ih =>
    cases rest with
    | nil => simp [joinSegments]
    | cons b rest2 =>
      have := ih (by simp)
      simp only [List.cons_append, List.append_eq, joinSegments] at this ⊢
      rw [this]
      simp [String.append_assoc]

theorem chainXPath_ne_empty (segs : List String) : chainXPath segs ≠ "" := by
  intro h
  have hd : (chainXPath segs).data = ("" : String).data := by rw [h]
  rw [chainXPath, String.data_append] at hd
  simp at hd

theorem extendXPath_chain (ss : List String) (seg : String) :
    extendXPath (pathOfChain ss) seg = chainXPath (ss ++ [seg]) := by
  cases ss with
  | nil => simp [pathOfChain, extendXPath, chainXPath, joinSegments]
  | cons a rest =>
    rw [pathOfChain, extendXPath,
      if_neg (chainXPath_ne_empty (a :: rest))]
    rw [chainXPath, chainXPath,
      joinSegments_append_last (a :: rest) seg (by simp)]
    simp [String.append_assoc]

theorem pathOfChain_of_ne_nil (segs : List String) (h : segs ≠ []) :
    pathOfChain segs = chainXPath segs := by
  cases segs with
  | nil => exact absurd rfl h
  | cons a rest => rfl

mutual

theorem traverseNode_eq_spec (node : DomNode) (ss : List String)
    (seg : String) :
    traverseNode node (pathOfChain ss) seg = specTravNode node ss seg := by
  match node with
  | .mk name id cs =>
    rw [traverseNode, specTravNode]
    have hcur : extendXPath (pathOfChain ss) seg = chainXPath (ss ++ [seg]) :=
      extendXPath_chain ss seg
    rw [hcur, ← pathOfChain_of_ne_nil (ss ++ [seg]) (by simp)]
    rw [traverseChildren_eq_spec (.mk name id cs) cs [] (ss ++ [seg])]
termination_by sizeOf node

theorem traverseChildren_eq_spec (parent : DomNode) (cs before : List DomNode)
    (segs : List String) :
    traverseChildren parent cs before (pathOfChain segs) =
      specTravChildren parent cs before segs := by
  match cs with
  | [] => rw [traverseChildren, specTravChildren]
  | c :: rest =>
    rw [traverseChildren, specTravChildren]
    rw [traverseNode_eq_spec c segs (childSegment parent before c)]
    rw [traverseChildren_eq_spec parent rest (before ++ [c]) segs]
termination_by sizeOf cs

end

/-! Helper lemma for the port allocator: a returned port is the least
acceptable one at or above the start of the scan. -/

theorem allocFrom_spec (used : List Nat) (bindFree : Nat → Bool) :
    ∀ (fuel start p : Nat), allocFrom used bindFree fuel start = some p →
      start ≤ p ∧ p ∉ used ∧ bindFree p = true ∧
        ∀ q, start ≤ q → q < p → (q ∈ used ∨ bindFree q = false) := by
  intro fuel
  induction fuel with
  | zero =>
    intro start p h
    exact absurd h (by simp [allocFrom])
  | succ f ih =>
    intro start p h
    rw [allocFrom] at h
    by_cases hc : used.contains start || ! bindFree start
    · rw [if_pos hc] at h
      obtain ⟨h1, h2, h3, h4⟩ := ih (start + 1) p h
      refine ⟨by omega, h2, h3, ?_⟩
      intro q hq hqp
      by_cases hqs : q = start
      · subst hqs
        have hc2 : used.contains q = true ∨ bindFree q = false := by
          cases hm : used.contains q with
          | true => exact Or.inl rfl
          | false =>
            cases hb : bindFree q with
            | false => exact Or.inr rfl
            | true => rw [hm, hb] at hc; exact absurd hc (by simp)
        rcases hc2 with hmem | hnb
        · exact Or.inl (List.elem_iff.mp hmem)
        · exact Or.inr hnb
      · exact h4 q (by omega) hqp
    · rw [if_neg hc] at h
      rcases Option.some.inj h with rfl
      have hnc : used.contains start = false ∧ bindFree start = true := by
        cases hm : used.contains start with
        | true => exact absurd (by rw [hm]; rfl) hc
        | false =>
          cases hb : bindFree start with
          | true => exact ⟨rfl, rfl⟩
          | false => exact absurd (by rw [hm, hb]; rfl) hc
      refine ⟨Nat.le_refl _, ?_, hnc.2, ?_⟩
      · intro hmem
        have h5 : used.contains start = true := List.elem_iff.mpr hmem
        rw [h5] at hnc
        exact absurd hnc.1 (by simp)
      · intro q hq hqp
        omega

/-! Helper lemmas for the console ring: feeding a stream into the empty ring
keeps exactly the most recent 1000 entries. -/

theorem runConsole_append_singleton (es : List ConsoleEntry) (e : ConsoleEntry) :
    runConsole (es ++ [e]) = pushConsole (runConsole es) e := by
  unfold runConsole
  rw [List.foldl_append]
  rfl

theorem runConsole_eq_drop (es : List ConsoleEntry) :
    runConsole es = es.drop (es.length - 1000) := by
  induction es using List.reverseRecOn with
  | nil => rfl
  | append_singleton es e ih =>
    rw [runConsole_append_singleton, ih]
    have hdropped : es.drop (es.length - 1000) ++ [e] =
        (es ++ [e]).drop (es.length - 1000) :=
      (List.drop_append_of_le_length (by omega)).symm
    have hLA : (es.drop (es.length - 1000) ++ [e]).length
        = es.length - (es.length - 1000) + 1 := by
      simp
    rw [show ∀ (ring : List ConsoleEntry) (x : ConsoleEntry), pushConsole ring x =
          if 1000 < (ring ++ [x]).length then
            (ring ++ [x]).drop ((ring ++ [x]).length - 1000)
          else ring ++ [x] from fun _ _ => rfl]
    by_cases hlen : es.length < 1000
    · have h1 : ¬ 1000 < (es.drop (es.length - 1000) ++ [e]).length := by
        rw [hLA]; omega
      rw [if_neg h1, hdropped]
      have harith : es.length - 1000 = (es ++ [e]).length - 1000 := by
        simp only [List.length_append, List.length_cons, List.length_nil]
        omega
      rw [harith]
    · have h1 : 1000 < (es.drop (es.length - 1000) ++ [e]).length := by
        rw [hLA]; omega
      rw [if_pos h1, hLA, hdropped, List.drop_drop]
      have harith : es.length - 1000 + (es.length - (es.length - 1000) + 1 - 1000)
          = (es ++ [e]).length - 1000 := by
        simp only [List.length_append, List.length_cons, List.length_nil]
        omega
      rw [harith]

/-! ## Claim theorems -/

/-- C2 counterexample: `POST /fill-search` is an interaction endpoint, yet
the numeric token `42` with an empty ID→XPath map makes it answer an HTTP
500 `Search error: XPath not found for ID: 42` (the `resolveSelector` throw
caught at daemon.js 480), not the claimed 400-class `XPath not found for
ID`; likewise an unmatched explicit selector gets a 500 `Search error:
Element not found for selector: #q`, not the claimed 400. -/
theorem c2_counterexample :
    jsIsNumericToken "42" = true ∧
    lookupIdXPath [] "42" = none ∧
    fillSearchHandler [] (fun _ => true) fillNeverThrows "login" (some "42") =
      SearchResp.serverErr
        ("Search error: XPath not found for ID: 42\n\nTry using --selector to specify the search input explicitly.") ∧
    fillSearchHandler [] (fun _ => true) fillNeverThrows "login" (some "42") ≠
      SearchResp.badReq "XPath not found for ID" ∧
    fillSearchHandler [] (fun _ => false) fillNeverThrows "login" (some "#q") =
      SearchResp.serverErr
        ("Search error: Element not found for selector: #q\n\nTry using --selector to specify the search input explicitly.") := by
  refine ⟨by decide, by decide, by decide, by decide, by decide⟩

/-- C2 amended: for every selector token passed to an interaction endpoint
that resolves through `resolveAndPerformAction` (scroll-into-view, fill,
fill-secret, type, click): a token that passes the JS numeric test and hits
a (truthy) entry of the ID→XPath map makes the operation act on the stored
XPath (or fail with the element-not-found 400 carrying the original token
when no element matches); a numeric token missing from the map performs no
action and fails with the 400-class error `XPath not found for ID`; a
resolving non-numeric token with no matching element fails with
`Element not found for selector: <token>`.  `POST /fill-search` instead
routes explicit selectors through `resolveSelector`, whose unknown-ID
message carries the token, and reports both resolver failures as a
500-class `Search error: ...` response. -/
theorem c2_amended_selector_resolution (idMap : List (Nat × String))
    (pageHas : String → Bool) (tok : String) :
    (∀ xp, jsIsNumericToken tok = true → lookupIdXPath idMap tok = some xp →
        xp ≠ "" → tok ≠ "" →
        resolveForAction idMap pageHas tok =
          (if pageHas xp then ResolveResult.act xp
           else ResolveResult.err400 ("Element not found for selector: " ++ tok))) ∧
    (jsIsNumericToken tok = true → tok ≠ "" →
        lookupIdXPath idMap tok = none →
        resolveForAction idMap pageHas tok =
          ResolveResult.err400 "XPath not found for ID") ∧
    (jsIsNumericToken tok = false → tok ≠ "" → pageHas tok = false →
        resolveForAction idMap pageHas tok =
          ResolveResult.err400 ("Element not found for selector: " ++ tok)) ∧
    (jsIsNumericToken tok = true → lookupIdXPath idMap tok = none →
        resolveSelector idMap pageHas tok =
          Except.error ("XPath not found for ID: " ++ tok)) ∧
    (∀ (fillErr : String → Option String) (query m : String),
        queryBlank query = false →
        resolveSelector idMap pageHas tok = Except.error m →
        fillSearchHandler idMap pageHas fillErr query (some tok) =
          SearchResp.serverErr (searchErrMsg m)) := by
  refine ⟨?_, ?_, ?_, ?_, ?_⟩
  · intro xp hnum hlk hxp htok
    simp [resolveForAction, htok, hnum, hlk, hxp]
  · intro hnum htok hlk
    simp [resolveForAction, htok, hnum, hlk]
  · intro hnum htok hpage
    simp [resolveForAction, htok, hnum, hpage]
  · intro hnum hlk
    simp [resolveSelector, hnum, hlk]
  · intro fillErr query m hq hres
    simp [fillSearchHandler, hq, hres]

/-- Witness for C2 as amended, at the test tokens of the spec: token `42`
with the map binding id 42 acts on the stored XPath through
`resolveAndPerformAction`; with an empty map it fails with
`XPath not found for ID` there, while `fill-search` turns the same failure
into a 500 `Search error`. -/
theorem c2_amended_witness :
    resolveForAction [(42, "/html/body")] (fun _ => true) "42" =
      ResolveResult.act "/html/body" ∧
    resolveForAction [] (fun _ => true) "42" =
      ResolveResult.err400 "XPath not found for ID" ∧
    fillSearchHandler [] (fun _ => true) fillNeverThrows "news" (some "42") =
      SearchResp.serverErr (searchErrMsg "XPath not found for ID: 42") := by
  refine ⟨?_, ?_, ?_⟩
  · have h := (c2_amended_selector_resolution [(42, "/html/body")]
      (fun _ => true) "42").1 "/html/body" (by decide) (by decide) (by decide)
      (by decide)
    simpa using h
  · exact (c2_amended_selector_resolution [] (fun _ => true) "42").2.1
      (by decide) (by decide) (by decide)
  · exact (c2_amended_selector_resolution [] (fun _ => true) "42").2.2.2.2
      fillNeverThrows "news" "XPath not found for ID: 42" (by decide) rfl

/-- C4: whenever `allocatePort` answers, the port is the least integer at or
above 3030 that is neither a registered port nor rejected by the bind probe;
with registered ports 3030, 3031, 3033 and every probe succeeding it returns
3032; on an empty registry the default-named instance gets 3030. -/
theorem c4_allocate_port :
    (∀ (registry : List (String × RegEntry)) (bindFree : Nat → Bool)
        (fuel p : Nat),
        allocatePort registry bindFree fuel = some p →
        3030 ≤ p ∧ p ∉ registry.map (fun e => e.2.port) ∧ bindFree p = true ∧
          ∀ q, 3030 ≤ q → q < p →
            (q ∈ registry.map (fun e => e.2.port) ∨ bindFree q = false)) ∧
    allocatePort
        [("default", ⟨3030, 11⟩), ("a", ⟨3031, 12⟩), ("b", ⟨3033, 13⟩)]
        (fun _ => true) 8 = some 3032 ∧
    startPortSelection "default" [] (fun _ => true) 8 = some 3030 := by
  refine ⟨?_, by decide, by decide⟩
  intro registry bindFree fuel p h
  exact allocFrom_spec _ _ fuel 3030 p h

/-- Witness for C4: the minimality description instantiated at the concrete
registry with ports 3030, 3031, 3033. -/
theorem c4_allocate_port_witness :
    3030 ≤ 3032 ∧
    3032 ∉ ([("default", (⟨3030, 11⟩ : RegEntry)), ("a", ⟨3031, 12⟩),
        ("b", ⟨3033, 13⟩)].map (fun e => e.2.port)) ∧
    (fun _ => true : Nat → Bool) 3032 = true ∧
    ∀ q, 3030 ≤ q → q < 3032 →
      (q ∈ ([("default", (⟨3030, 11⟩ : RegEntry)), ("a", ⟨3031, 12⟩),
          ("b", ⟨3033, 13⟩)].map (fun e => e.2.port)) ∨
        (fun _ => true : Nat → Bool) q = false) :=
  c4_allocate_port.1
    [("default", ⟨3030, 11⟩), ("a", ⟨3031, 12⟩), ("b", ⟨3033, 13⟩)]
    (fun _ => true) 8 3032 (by decide)

/-- C5: after a registry read that parsed the file, every returned entry has
a live pid, and every dead entry is gone both from the returned map and from
the file on disk. -/
theorem c5_registry_liveness (m : List (String × RegEntry))
    (alive : Nat → Bool) :
    (∀ e ∈ (readRegistry (some m) alive).1, alive e.2.pid = true) ∧
    (∀ e ∈ m, alive e.2.pid = false →
        e ∉ (readRegistry (some m) alive).1 ∧
        ∀ f, fileAfterRead (some m) alive = some f → e ∉ f) := by
  constructor
  · intro e he
    exact (List.mem_filter.mp he).2
  · intro e he hdead
    have hnotin : e ∉ (readRegistry (some m) alive).1 := by
      intro hin
      have h2 := (List.mem_filter.mp hin).2
      rw [hdead] at h2
      exact Bool.false_ne_true h2
    refine ⟨hnotin, ?_⟩
    intro f hf
    have hch : m.any (fun x => ! alive x.2.pid) = true :=
      List.any_eq_true.mpr ⟨e, he, by rw [hdead]; rfl⟩
    have : fileAfterRead (some m) alive =
        some (m.filter (fun x => alive x.2.pid)) := by
      simp [fileAfterRead, readRegistry, hch]
    rw [this] at hf
    rcases Option.some.inj hf with rfl
    exact hnotin

/-- Witness for C5: a registry with one live and one dead entry; the dead
entry vanishes from the returned map and from the rewritten file. -/
theorem c5_registry_liveness_witness :
    ("gone", (⟨3031, 22⟩ : RegEntry)) ∉
      (readRegistry (some [("default", ⟨3030, 11⟩), ("gone", ⟨3031, 22⟩)])
        (fun pid => pid = 11)).1 ∧
    ∀ f, fileAfterRead (some [("default", ⟨3030, 11⟩), ("gone", ⟨3031, 22⟩)])
        (fun pid => pid = 11) = some f →
      ("gone", (⟨3031, 22⟩ : RegEntry)) ∉ f :=
  (c5_registry_liveness [("default", ⟨3030, 11⟩), ("gone", ⟨3031, 22⟩)]
      (fun pid => pid = 11)).2
    ("gone", ⟨3031, 22⟩) (by decide) (by decide)

/-- C8 (code bug): the `start` command passes the allocated port in
`BR_PORT`, but the listen step of the daemon binds the hardcoded constant 3030
and logs `running on port 3030` regardless of the environment; for an
instance allocated port 3031 the bound port differs from the allocated one. -/
theorem c8_daemon_ignores_br_port :
    ("BR_PORT", "3031") ∈ startEnv "work" 3031 ∧
    daemonListenPort (startEnv "work" 3031) = 3030 ∧
    daemonListenPort (startEnv "work" 3031) ≠ 3031 ∧
    daemonListenLog (startEnv "work" 3031) = "br daemon running on port 3030" := by
  refine ⟨by decide, rfl, by decide, by decide⟩

/-- C9: the console ring keeps exactly the most recent 1000 entries; after
1500 events, 1000 remain and they are the stream with its 500 oldest
entries dropped. -/
theorem c9_console_ring_bound (es : List ConsoleEntry)
    (h : es.length = 1500) :
    runConsole es = es.drop 500 ∧ (runConsole es).length = 1000 := by
  have hrun := runConsole_eq_drop es
  rw [h] at hrun
  have h500 : (1500 - 1000 : Nat) = 500 := by norm_num
  rw [h500] at hrun
  refine ⟨hrun, ?_⟩
  rw [hrun, List.length_drop, h]

/-- Witness for C9 on a concrete stream of 1500 events. -/
theorem c9_console_ring_witness :
    runConsole c9Events = c9Events.drop 500 ∧
    (runConsole c9Events).length = 1000 :=
  c9_console_ring_bound c9Events (by simp [c9Events])

/-- C10: `POST /fill-secret` adds the secret to the masked set only after
the driver fill succeeds: a failed resolution answers 400 and a throwing
fill answers 500, in both cases leaving secrets and history untouched; on
success the secret is added and exactly one history entry is appended. -/
theorem c10_fill_secret_atomicity (st : SessionState)
    (idMap : List (Nat × String)) (pageHas : String → Bool)
    (fillErr : String → Option String) (now sel sec : String) :
    (∀ m, resolveForAction idMap pageHas sel = ResolveResult.err400 m →
        fillSecretHandler st idMap pageHas fillErr now sel (some sec) =
          (st, HttpResp.badReq m)) ∧
    (∀ actual m, resolveForAction idMap pageHas sel = ResolveResult.act actual →
        fillErr actual = some m →
        fillSecretHandler st idMap pageHas fillErr now sel (some sec) =
          (st, HttpResp.serverErr (actionErrMsg m))) ∧
    (∀ actual, resolveForAction idMap pageHas sel = ResolveResult.act actual →
        fillErr actual = none →
        fillSecretHandler st idMap pageHas fillErr now sel (some sec) =
          ({ secrets := addSecret st.secrets sec,
             history := st.history ++
               [⟨"fill-secret", [("selector", sel)], now⟩] }, HttpResp.ok)) ∧
    (∀ st2 resp,
        fillSecretHandler st idMap pageHas fillErr now sel (some sec) =
          (st2, resp) →
        resp ≠ HttpResp.ok → st2 = st) := by
  refine ⟨?_, ?_, ?_, ?_⟩
  · intro m hres
    simp [fillSecretHandler, hres]
  · intro actual m hres hfe
    simp [fillSecretHandler, hres, hfe]
  · intro actual hres hfe
    simp [fillSecretHandler, hres, hfe]
  · intro st2 resp h hne
    cases hres : resolveForAction idMap pageHas sel with
    | err400 m =>
      simp [fillSecretHandler, hres] at h
      exact h.1.symm
    | act actual =>
      cases hfe : fillErr actual with
      | some m =>
        simp [fillSecretHandler, hres, hfe] at h
        exact h.1.symm
      | none =>
        simp [fillSecretHandler, hres, hfe] at h
        exact absurd h.2.symm hne

/-- Witness for C10: a selector that resolves to no element leaves the
session unchanged with a 400; a successful fill adds the secret and the
history entry. -/
theorem c10_fill_secret_witness :
    fillSecretHandler ⟨[], []⟩ [] (fun _ => false) fillNeverThrows "t0" "#pwd"
        (some "hunter2") =
      (⟨[], []⟩, HttpResp.badReq "Element not found for selector: #pwd") ∧
    fillSecretHandler ⟨[], []⟩ [] allSelectorsMatch fillNeverThrows "t0" "#pwd"
        (some "hunter2") =
      (⟨["hunter2"], [⟨"fill-secret", [("selector", "#pwd")], "t0"⟩]⟩,
        HttpResp.ok) := by
  constructor
  · exact (c10_fill_secret_atomicity ⟨[], []⟩ [] (fun _ => false)
      fillNeverThrows "t0" "#pwd" "hunter2").1
      "Element not found for selector: #pwd" (by decide)
  · have h := (c10_fill_secret_atomicity ⟨[], []⟩ [] allSelectorsMatch
      fillNeverThrows "t0" "#pwd" "hunter2").2.2.1 "#pwd" (by decide) rfl
    simpa [addSecret] using h

/-- C1 counterexample: after `fill-secret` of `un` and then of `hunter2`,
the `/html` response for a page whose source is exactly `hunter2` is
`h***ter2` (the pass for the earlier secret rewrote the page, so the occurrence of
`hunter2` is not replaced by `***`); and after a plain `POST /fill` whose
text happens to equal the secret, the history does contain the literal
secret. -/
theorem c1_counterexample :
    c1Step2.1.secrets = ["un", "hunter2"] ∧
    htmlResponse c1Step2.1 "hunter2" = "h***ter2" ∧
    String.mk (maskOneSecret "hunter2".data "hunter2".data) = "***" ∧
    htmlResponse c1Step2.1 "hunter2" ≠
      String.mk (maskOneSecret "hunter2".data "hunter2".data) ∧
    c1Step3.1.history.any (fun e => histEntryContains e "hunter2") = true := by
  refine ⟨by decide, by decide, by decide, by decide, by decide⟩

/-- C1 amended: for every stored secret that is non-empty and free of `*`,
the `/html` response contains no occurrence of that secret (masking runs
iteratively per secret in insertion order, so an occurrence overlapping an
earlier secret may be destroyed rather than replaced verbatim by `***`);
and the history entry recorded by a successful `fill-secret` consists of
the action name, the selector and a timestamp only — never the secret. -/
theorem c1_amended_secret_masking :
    (∀ (st : SessionState) (s html : String), s ∈ st.secrets → s ≠ "" →
        '*' ∉ s.data → ¬ s.data <:+: (htmlResponse st html).data) ∧
    (∀ (st : SessionState) (idMap : List (Nat × String))
        (pageHas : String → Bool) (fillErr : String → Option String)
        (now sel sec : String) (out : SessionState),
        fillSecretHandler st idMap pageHas fillErr now sel (some sec) =
          (out, HttpResp.ok) →
        out.history = st.history ++
          [⟨"fill-secret", [("selector", sel)], now⟩]) := by
  constructor
  · intro st s html hmem hs hstar
    have hdata : (htmlResponse st html).data =
        maskSecretList (st.secrets.map String.data) html.data := rfl
    rw [hdata]
    have hmem2 : s.data ∈ st.secrets.map String.data :=
      List.mem_map_of_mem String.data hmem
    have hsd : s.data ≠ [] := by
      intro h0
      apply hs
      cases s with
      | mk l =>
        simp only [String.data] at h0
        rw [h0]
    exact maskSecretList_no_secret _ _ hmem2 hsd hstar html.data
  · intro st idMap pageHas fillErr now sel sec out h
    cases hres : resolveForAction idMap pageHas sel with
    | err400 m => simp [fillSecretHandler, hres] at h
    | act actual =>
      cases hfe : fillErr actual with
      | some m => simp [fillSecretHandler, hres, hfe] at h
      | none =>
        simp [fillSecretHandler, hres, hfe] at h
        rw [← h]

/-- Witness for C1 as amended: with `hunter2` stored, the `/html` response
for a page mentioning it twice contains no occurrence of the secret; a
successful `fill-secret` appends exactly the selector-only entry. -/
theorem c1_amended_witness :
    (¬ "hunter2".data <:+:
        (htmlResponse ⟨["hunter2"], []⟩ "use hunter2 or hunter2 here").data) ∧
    (fillSecretHandler ⟨[], []⟩ [] allSelectorsMatch fillNeverThrows "t0" "#pwd"
          (some "hunter2")).1.history =
      ([] : List HistEntry) ++ [⟨"fill-secret", [("selector", "#pwd")], "t0"⟩] := by
  constructor
  · exact c1_amended_secret_masking.1 ⟨["hunter2"], []⟩ "hunter2"
      "use hunter2 or hunter2 here" (by decide) (by decide) (by decide)
  · exact c1_amended_secret_masking.2 ⟨[], []⟩ [] allSelectorsMatch
      fillNeverThrows "t0" "#pwd" "hunter2" _ (by decide)

/-- C3 counterexample: on the DOM of `<ul><li>a</li><li>b</li></ul>` the
tree builder computes `//html/body/ul/li[1]` for the first `li` — the
`#document` root contributes an empty segment, so the stored xpath starts
with `//`, not the claimed `/html/body/ul/li[1]`. -/
theorem c3_counterexample :
    traverseDomAndMap c3Doc =
      [(1, "/"), (2, "//html"), (3, "//html/body"), (4, "//html/body/ul"),
       (5, "//html/body/ul/li[1]"), (6, "//html/body/ul/li[2]")] ∧
    (5, "/html/body/ul/li[1]") ∉ traverseDomAndMap c3Doc ∧
    ("//html/body/ul/li[1]" : String) ≠ "/html/body/ul/li[1]" := by
  have heval : traverseDomAndMap c3Doc =
      [(1, "/"), (2, "//html"), (3, "//html/body"), (4, "//html/body/ul"),
       (5, "//html/body/ul/li[1]"), (6, "//html/body/ul/li[2]")] := by
    simp [traverseDomAndMap, traverseNode, traverseChildren, rootSegment,
          childSegment, extendXPath, c3Li1, c3Li2, c3Ul, c3Body, c3Html, c3Doc,
          DomNode.nodeName, DomNode.children]
    decide
  refine ⟨heval, ?_, by decide⟩
  rw [heval]
  decide

/-- C3 amended: the incrementally built xpath of the traversal equals, for every
node, `/` followed by the `/`-joined concatenation of the per-ancestor
segments, where the `#document` root contributes an empty segment (hence
the leading `//` on document-rooted xpaths) and each element segment is the
lowercased tag with a 1-based `[k]` among same-tag siblings exactly when
more than one such sibling exists; on `<ul><li>a</li><li>b</li></ul>` the
two `li` nodes get `//html/body/ul/li[1]` and `//html/body/ul/li[2]`. -/
theorem c3_amended_xpath_generation :
    (∀ root : DomNode,
        traverseDomAndMap root = specTravNode root [] (rootSegment root)) ∧
    chainXPath ["", "html", "body", "ul", "li[1]"] = "//html/body/ul/li[1]" ∧
    (5, "//html/body/ul/li[1]") ∈ traverseDomAndMap c3Doc ∧
    (6, "//html/body/ul/li[2]") ∈ traverseDomAndMap c3Doc := by
  have heval : traverseDomAndMap c3Doc =
      [(1, "/"), (2, "//html"), (3, "//html/body"), (4, "//html/body/ul"),
       (5, "//html/body/ul/li[1]"), (6, "//html/body/ul/li[2]")] := by
    simp [traverseDomAndMap, traverseNode, traverseChildren, rootSegment,
          childSegment, extendXPath, c3Li1, c3Li2, c3Ul, c3Body, c3Html, c3Doc,
          DomNode.nodeName, DomNode.children]
    decide
  refine ⟨?_, by decide, ?_, ?_⟩
  · intro root
    exact traverseNode_eq_spec root [] (rootSegment root)
  · rw [heval]; decide
  · rw [heval]; decide

/-- C6: `POST /goto` with a url awaits `page.goto` with a 30000 ms timeout
and `waitUntil: domcontentloaded`; with human-like mode on, a 200-400 ms
delay precedes the call and (on success) another follows it; with it off no
delays occur; on success the response is `ok` and the console entries of
the active tab are dropped while entries of other tabs survive. -/
theorem c6_goto_semantics (u m : String) (succ : Bool)
    (entries : List ConsoleEntry) (tab : Nat) :
    ((gotoHandler true (some u) succ m).1 =
        [NavEvent.delay 200 400] ++
          [NavEvent.gotoCall u 30000 "domcontentloaded"] ++
          (if succ then [NavEvent.delay 200 400] else [])) ∧
    ((gotoHandler false (some u) succ m).1 =
        [NavEvent.gotoCall u 30000 "domcontentloaded"]) ∧
    ((gotoHandler true (some u) true m).2 = HttpResp.ok) ∧
    (∀ e, e ∈ consoleAfterGoto entries tab true ↔
        e ∈ entries ∧ e.tab ≠ tab) ∧
    (consoleAfterGoto entries tab false = entries) := by
  refine ⟨?_, ?_, ?_, ?_, ?_⟩
  · cases succ <;> simp [gotoHandler, humanDelayTrace]
  · cases succ <;> simp [gotoHandler, humanDelayTrace]
  · simp [gotoHandler]
  · intro e
    simp [consoleAfterGoto, clearConsoleForTab, List.mem_filter]
  · simp [consoleAfterGoto]

/-- C7 counterexample: the trace of awaited operations of `GET /screenshot`
at a concrete request contains neither a `dismissModals` call nor a
challenge-bypass wait — those run only in the separate `POST /shot`
endpoint — while the PNG is still written to the default temp-dir path. -/
theorem c7_counterexample :
    (screenshotHandler "/tmp" true (fun p => p) "example.com" 1712345
        none none).1 =
      [ShotEvent.screenshotCall "/tmp/br_cli/shot-example.com-1712345.png"
        false] ∧
    ShotEvent.dismissModalsCall ∉
      (screenshotHandler "/tmp" true (fun p => p) "example.com" 1712345
        none none).1 ∧
    ShotEvent.waitChallengeCall ∉
      (screenshotHandler "/tmp" true (fun p => p) "example.com" 1712345
        none none).1 ∧
    (screenshotHandler "/tmp" true (fun p => p) "example.com" 1712345
        none none).2 = "/tmp/br_cli/shot-example.com-1712345.png" := by
  refine ⟨by decide, by decide, by decide, by decide⟩

/-- C7 amended: `GET /screenshot` writes the PNG to the resolved
caller-supplied path, or otherwise to the temp directory under
`shot-<sanitised domain>-<epoch>.png`, and returns that path; it performs
no modal dismissal and no challenge-bypass wait (those belong to
`POST /shot`). -/
theorem c7_amended_screenshot (tmpdir : String) (dirExists : Bool)
    (resolvePath : String → String) (hostname : String) (epoch : Nat)
    (qp qf : Option String) :
    ((screenshotHandler tmpdir dirExists resolvePath hostname epoch qp qf).2 =
        match qp with
        | some p => resolvePath p
        | none => tmpdir ++ "/br_cli" ++ "/shot-" ++ sanitizeDomain hostname ++
            "-" ++ toString epoch ++ ".png") ∧
    ((screenshotHandler tmpdir dirExists resolvePath hostname epoch qp qf).1 =
        (if dirExists then [] else [ShotEvent.mkdirTempDir]) ++
          [ShotEvent.screenshotCall
            (screenshotHandler tmpdir dirExists resolvePath hostname epoch
              qp qf).2
            (qf = some "true")]) ∧
    ShotEvent.dismissModalsCall ∉
      (screenshotHandler tmpdir dirExists resolvePath hostname epoch qp qf).1 ∧
    ShotEvent.waitChallengeCall ∉
      (screenshotHandler tmpdir dirExists resolvePath hostname epoch qp qf).1 := by
  refine ⟨?_, ?_, ?_, ?_⟩
  · cases qp <;> simp [screenshotHandler]
  · cases qp <;> cases dirExists <;> simp [screenshotHandler]
  · cases dirExists <;> simp [screenshotHandler]
  · cases dirExists <;> simp [screenshotHandler]

end BrowserCli
